import Mathlib

/-!
Verification of the card dispatch, progress state machine and action bridge
of `src/ui/ui.tsx` (cms-copilot generative UI).

The TypeScript source is shallowly embedded: JS numbers that the code uses as
integers become `Int`, absent (`undefined`) fields become `Option`, the JS
falsy coercions `x || 1`, `x || 0`, `s || ""` become explicit functions, and
the side-effecting bridge code (`sendMessage`, `resumeInterrupt`) becomes a
pure function from a host model to the list of externally visible actions it
performs, in order.  `String.repeat` faults on a negative count in JS
(RangeError), so the glyph renderer returns an `Option`.
-/

namespace CmsCopilot

/-! ## Progress tracker

`SEOPlannerCard` (ui.tsx:977-1011) and `ReportProgressCard` (ui.tsx:1883-1917)
both render `steps.map((step, idx) => ...)` with
`isActive = (props.active_step || 1) === idx + 1` and
`isDone = (props.active_step || 1) > idx + 1`, the glyph being
done-check if `isDone`, spinner if `isActive`, and the index otherwise. -/

inductive StepState where
  | done
  | active
  | pending
deriving DecidableEq, Repr

/-- JS `x || 1` on a number-or-undefined: `undefined` and `0` are falsy. -/
def jsOrOne : Option Int → Int
  | none => 1
  | some v => if v = 0 then 1 else v

/-- Visual state of the step at 0-based index `idx` (the source compares the
cursor against `idx + 1`). -/
def stepState (activeStep : Option Int) (idx : Nat) : StepState :=
  let a := jsOrOne activeStep
  if a > (idx + 1 : Int) then .done
  else if a = (idx + 1 : Int) then .active
  else .pending

/-- The per-step states produced by the `steps.map((step, idx) => ...)` loop. -/
def renderSteps (steps : List String) (activeStep : Option Int) : List StepState :=
  steps.mapIdx (fun idx _ => stepState activeStep idx)

/-! ## Card registry (ui.tsx:2013-2027) -/

inductive Renderer where
  | IntentRouterCard
  | ArticleWorkflowCard
  | ArticleClarifyCard
  | MCPWorkflowCard
  | SEOPlannerCard
  | SiteReportCard
  | ReportProgressCard
  | ReportChartsCard
  | ReportInsightsCard
deriving DecidableEq, Repr

/-- The `ComponentMap` object literal, in source order; the legacy key
`"card"` maps to `IntentRouterCard`. -/
def ComponentMap : List (String × Renderer) :=
  [("intent_router", .IntentRouterCard),
   ("article_workflow", .ArticleWorkflowCard),
   ("article_clarify", .ArticleClarifyCard),
   ("mcp_workflow", .MCPWorkflowCard),
   ("seo_planner", .SEOPlannerCard),
   ("site_report", .SiteReportCard),
   ("report_progress", .ReportProgressCard),
   ("report_charts", .ReportChartsCard),
   ("report_insights", .ReportInsightsCard),
   ("card", .IntentRouterCard)]

/-- JS property access `ComponentMap[key]`: the renderer when the key is
present, `undefined` (here `none`) otherwise; it never throws. -/
def componentLookup (key : String) : Option Renderer :=
  (ComponentMap.find? (fun p => p.1 == key)).map Prod.snd

/-! ## SEO task glyph scale (ui.tsx:1077-1078)

`"★".repeat(task.impact || 0)` followed by `"☆".repeat(5 - (task.impact || 0))`.
JS `String.prototype.repeat` throws a RangeError on a negative count, so the
embedded renderer returns `none` on a fault. -/

/-- JS `x || 0` on a number-or-undefined. -/
def jsOrZero : Option Int → Int
  | none => 0
  | some v => v

/-- JS `String.prototype.repeat` on a single glyph: faults on negative count. -/
def strRepeat (glyph : Char) (n : Int) : Option (List Char) :=
  if n < 0 then none else some (List.replicate n.toNat glyph)

/-- The impact (equally: difficulty) glyph scale of one SEO task row. -/
def impactGlyphs (impact : Option Int) : Option (List Char) :=
  match strRepeat '★' (jsOrZero impact) with
  | none => none
  | some filled =>
    match strRepeat '☆' (5 - jsOrZero impact) with
    | none => none
    | some empty => some (filled ++ empty)

/-- The chat message of the fix-action click handler (ui.tsx:1119):
`task.fix_prompt || ` a default sentence built from the title. -/
def fixDefaultText (title : String) : String :=
  "针对\"" ++ title ++ "\"问题，创建相关内容进行优化。"

/-- JS `task.fix_prompt || default`: `undefined` and `""` are falsy. -/
def fixChatMessage (fixPrompt : Option String) (title : String) : String :=
  match fixPrompt with
  | none => fixDefaultText title
  | some s => if s = "" then fixDefaultText title else s

/-! ## Action bridge (ui.tsx:430-486 and the line-identical ui.tsx:678-751)

`sendMessage(text)` probes the fixed global name list, calling the first name
bound to a function inside `try { win[fn](text); return } catch \x7b\x7d`;
when every existing probe throws (or none exists) it dispatches the
`langgraph:send` custom event and then, without any check on the broadcast,
walks the selector list manipulating the first matching input (value setter,
input/change events, then a scheduled delayed submit).  The host is modelled
by what `typeof window[fn]` sees and whether it would throw, plus which
selectors `document.querySelector` can resolve; the bridge is modelled as the
ordered list of externally visible actions. -/

inductive BridgeArg where
  | text (s : String)
  | resumeVal (confirmed : Bool)
deriving DecidableEq, Repr

inductive BridgeEv where
  | callGlobal (fn : String) (arg : BridgeArg)
  | broadcast (eventName : String) (arg : BridgeArg)
  | setValue (selector : String) (text : String)
  | scheduleSubmit
deriving DecidableEq, Repr

inductive FnBehavior where
  | absent
  | throws
  | ok
deriving DecidableEq, Repr

structure Host where
  global : String → FnBehavior
  query : String → Bool

/-- The `for (const fn of fns) if (typeof win[fn] === "function") try ... `
loop: returns the calls it made and whether one returned without throwing. -/
def probeGlobals (h : Host) (arg : BridgeArg) : List String → List BridgeEv × Bool
  | [] => ([], false)
  | fn :: rest =>
    match h.global fn with
    | .absent => probeGlobals h arg rest
    | .ok => ([.callGlobal fn arg], true)
    | .throws =>
      let p := probeGlobals h arg rest
      (.callGlobal fn arg :: p.1, p.2)

def sendGlobalFns : List String :=
  ["__LANGGRAPH_SEND_MESSAGE__", "__LANGGRAPH_SEND__", "sendMessage", "sendChatMessage"]

def sendSelectors : List String := ["textarea", "input[type=\"text\"]"]

/-- Strategy 3: first selector with a match gets the value set and a delayed
submit scheduled; later selectors are not tried. -/
def domPhase (h : Host) (text : String) : List String → List BridgeEv
  | [] => []
  | sel :: rest =>
    if h.query sel then [.setValue sel text, .scheduleSubmit]
    else domPhase h text rest

/-- The embedded `sendMessage`: on a successful global call the function
returns; otherwise it broadcasts `langgraph:send` and unconditionally enters
the selector walk. -/
def sendMessage (h : Host) (text : String) : List BridgeEv :=
  match probeGlobals h (.text text) sendGlobalFns with
  | (evs, true) => evs
  | (evs, false) =>
    evs ++ .broadcast "langgraph:send" (.text text) :: domPhase h text sendSelectors

/-! ## Resume bridge (ui.tsx:754-778) -/

def resumeAltFns : List String := ["resumeThread", "resume", "sendResume"]

/-- The embedded `resumeInterrupt(value)` with `value = \x7bconfirmed\x7d`:
method 1 `__LANGGRAPH_RESUME__`, method 2 the alternative names, method 3 the
`langgraph:resume` broadcast, method 4 — run unconditionally after method 3 —
the action bridge with the localized confirm/cancel text. -/
def resumeInterrupt (h : Host) (confirmed : Bool) : List BridgeEv :=
  match probeGlobals h (.resumeVal confirmed) ["__LANGGRAPH_RESUME__"] with
  | (e1, true) => e1
  | (e1, false) =>
    match probeGlobals h (.resumeVal confirmed) resumeAltFns with
    | (e2, true) => e1 ++ e2
    | (e2, false) =>
      e1 ++ e2 ++ .broadcast "langgraph:resume" (.resumeVal confirmed)
        :: sendMessage h (if confirmed then "确认" else "取消")

/-! ### Trace classifiers -/

def isGlobalCall : BridgeEv → Bool
  | .callGlobal _ _ => true
  | _ => false

def isBroadcast : BridgeEv → Bool
  | .broadcast _ _ => true
  | _ => false

def isDomAction : BridgeEv → Bool
  | .setValue _ _ => true
  | .scheduleSubmit => true
  | _ => false

def isResumeBroadcast : BridgeEv → Bool
  | .broadcast n _ => n == "langgraph:resume"
  | _ => false

def isSendBroadcast : BridgeEv → Bool
  | .broadcast n _ => n == "langgraph:send"
  | _ => false

/-! ## JSON string codec

`handleSubmit` (ui.tsx:508-541) embeds `JSON.stringify(payload)` in the
composed message.  The encoder below is ECMAScript `QuoteJSONString` on the
four-string payload object (keys in insertion order, no whitespace); the
decoder is standard JSON string parsing, used to state the round-trip that
the spec assigns to the backend. -/

/-- Lowercase hexadecimal digit, as `JSON.stringify` emits in `\uNNNN`. -/
def hexDigit (n : Nat) : Char :=
  if n < 10 then Char.ofNat (48 + n) else Char.ofNat (87 + n)

/-- One source character of a JSON-quoted string (`QuoteJSONString`):
the two-character escapes, `\u00NN` for remaining control characters,
the character itself otherwise. -/
def escapeChar (c : Char) : List Char :=
  if c = '"' then ['\\', '"']
  else if c = '\\' then ['\\', '\\']
  else if c = Char.ofNat 8 then ['\\', 'b']
  else if c = Char.ofNat 12 then ['\\', 'f']
  else if c = Char.ofNat 10 then ['\\', 'n']
  else if c = Char.ofNat 13 then ['\\', 'r']
  else if c = Char.ofNat 9 then ['\\', 't']
  else if c.toNat < 32 then
    ['\\', 'u', '0', '0', hexDigit (c.toNat / 16), hexDigit (c.toNat % 16)]
  else [c]

def escapeList : List Char → List Char
  | [] => []
  | c :: cs => escapeChar c ++ escapeList cs

/-- Value of a hexadecimal digit character. -/
def hexVal (c : Char) : Option Nat :=
  if 48 ≤ c.toNat ∧ c.toNat ≤ 57 then some (c.toNat - 48)
  else if 97 ≤ c.toNat ∧ c.toNat ≤ 102 then some (c.toNat - 87)
  else if 65 ≤ c.toNat ∧ c.toNat ≤ 70 then some (c.toNat - 55)
  else none

/-- Decoded character of a two-character JSON escape `\e`. -/
def parseEscapeCode (e : Char) : Option Char :=
  if e = '"' then some '"'
  else if e = '\\' then some '\\'
  else if e = '/' then some '/'
  else if e = 'b' then some (Char.ofNat 8)
  else if e = 'f' then some (Char.ofNat 12)
  else if e = 'n' then some (Char.ofNat 10)
  else if e = 'r' then some (Char.ofNat 13)
  else if e = 't' then some (Char.ofNat 9)
  else none

/-- JSON string-body parser: consumes characters up to and including the
closing quote, returning the decoded characters and the remaining input.
Raw control characters are rejected, as in `JSON.parse`. -/
def parseJStringAux : List Char → Option (List Char × List Char)
  | [] => none
  | c :: rest =>
    if c = '"' then some ([], rest)
    else if c = '\\' then
      match rest with
      | [] => none
      | e :: r =>
        if e = 'u' then
          match r with
          | h1 :: h2 :: h3 :: h4 :: rr =>
            match hexVal h1, hexVal h2, hexVal h3, hexVal h4 with
            | some a, some b, some c2, some d =>
              (parseJStringAux rr).map
                (fun p => (Char.ofNat (((a * 16 + b) * 16 + c2) * 16 + d) :: p.1, p.2))
            | _, _, _, _ => none
          | _ => none
        else
          match parseEscapeCode e with
          | some c2 => (parseJStringAux r).map (fun p => (c2 :: p.1, p.2))
          | none => none
    else if c.toNat < 32 then none
    else (parseJStringAux rest).map (fun p => (c :: p.1, p.2))

/-- JSON string parser including the opening quote. -/
def parseJString : List Char → Option (List Char × List Char)
  | [] => none
  | c :: rest => if c = '"' then parseJStringAux rest else none

/-- Consume an expected literal from the front of the input. -/
def dropLit : List Char → List Char → Option (List Char)
  | [], input => some input
  | _ :: _, [] => none
  | p :: ps, c :: cs => if c = p then dropLit ps cs else none

/-- A JSON-quoted string, quotes included. -/
def jsonQuote (s : List Char) : List Char := '"' :: (escapeList s ++ ['"'])

/-- `JSON.stringify(\x7b topic, content_format, target_audience, tone \x7d)`:
keys in object-literal order, no whitespace. -/
def clarifyPayloadJson (topic contentFormat audience tone : String) : List Char :=
  "\x7b\"topic\":".data ++ jsonQuote topic.data
    ++ ",\"content_format\":".data ++ jsonQuote contentFormat.data
    ++ ",\"target_audience\":".data ++ jsonQuote audience.data
    ++ ",\"tone\":".data ++ jsonQuote tone.data
    ++ "\x7d".data

/-- Backend-side parse of the embedded JSON: exactly the object shape that
`clarifyPayloadJson` emits. -/
def parseClarifyJson (j : List Char) : Option (String × String × String × String) :=
  match dropLit "\x7b\"topic\":".data j with
  | none => none
  | some r1 =>
    match parseJString r1 with
    | none => none
    | some (t, r2) =>
      match dropLit ",\"content_format\":".data r2 with
      | none => none
      | some r3 =>
        match parseJString r3 with
        | none => none
        | some (cf, r4) =>
          match dropLit ",\"target_audience\":".data r4 with
          | none => none
          | some r5 =>
            match parseJString r5 with
            | none => none
            | some (aud, r6) =>
              match dropLit ",\"tone\":".data r6 with
              | none => none
              | some r7 =>
                match parseJString r7 with
                | none => none
                | some (tn, r8) =>
                  match dropLit "\x7d".data r8 with
                  | some [] => some (⟨t⟩, ⟨cf⟩, ⟨aud⟩, ⟨tn⟩)
                  | _ => none

/-- `JSON.stringify` of a string array, as used for the `submitting` effect
dependency `JSON.stringify(props.missing || [])`. -/
def jsonQuoteStrs : List String → List Char
  | [] => []
  | [s] => jsonQuote s.data
  | s :: rest => jsonQuote s.data ++ ',' :: jsonQuoteStrs rest

def jsonStringifyStrList (l : List String) : List Char :=
  '[' :: (jsonQuoteStrs l ++ [']'])

/-! ## Clarify form controller (ui.tsx:488-541)

Local state `topic/contentFormat/audience/tone/submitting`; one `useEffect`
per field re-seeds it when the corresponding prop changes, and
`useEffect(() => setSubmitting(false), [props.question,
JSON.stringify(props.missing || [])])` clears the guard when the question or
the serialized missing list changes. -/

structure ClarifyProps where
  question : Option String
  missing : Option (List String)
  topic : Option String
  content_format : Option String
  target_audience : Option String
  tone : Option String
deriving DecidableEq, Repr

structure ClarifyFormState where
  topic : String
  contentFormat : String
  audience : String
  tone : String
  submitting : Bool
deriving DecidableEq, Repr

/-- JS `s || ""` on a string-or-undefined prop. -/
def jsOrEmpty : Option String → String
  | none => ""
  | some s => s

/-- JS `s || ""` on a string (identity: `""` is falsy but maps to `""`). -/
def jsStrOrEmpty (s : String) : String := if s = "" then "" else s

/-- Initial `useState` values of a freshly mounted Clarify card. -/
def initClarifyState (p : ClarifyProps) : ClarifyFormState :=
  { topic := jsOrEmpty p.topic
    contentFormat := jsOrEmpty p.content_format
    audience := jsOrEmpty p.target_audience
    tone := jsOrEmpty p.tone
    submitting := false }

/-- The `useEffect` dependency `JSON.stringify(props.missing || [])`. -/
def missingKey (p : ClarifyProps) : List Char :=
  jsonStringifyStrList (p.missing.getD [])

/-- Effect of one payload update `prev → next` on the form state: each field
effect fires when its dependency changed; the `submitting` effect fires when
the question or the serialized missing list changed. -/
def applyClarifyUpdate (prev next : ClarifyProps) (s : ClarifyFormState) :
    ClarifyFormState :=
  { topic := if next.topic = prev.topic then s.topic else jsOrEmpty next.topic
    contentFormat :=
      if next.content_format = prev.content_format then s.contentFormat
      else jsOrEmpty next.content_format
    audience :=
      if next.target_audience = prev.target_audience then s.audience
      else jsOrEmpty next.target_audience
    tone := if next.tone = prev.tone then s.tone else jsOrEmpty next.tone
    submitting :=
      if next.question = prev.question ∧ missingKey next = missingKey prev then
        s.submitting
      else false }

/-- The human-readable part of the submitted message (ui.tsx:519-525). -/
def clarifyHeader (topic contentFormat audience tone : String) : List Char :=
  "已完善文章信息：\n- 主题：".data ++ (jsStrOrEmpty topic).data
    ++ "\n- 格式：".data ++ (jsStrOrEmpty contentFormat).data
    ++ "\n- 受众：".data ++ (jsStrOrEmpty audience).data
    ++ "\n- 风格：".data ++ (jsStrOrEmpty tone).data
    ++ "\n\n".data

/-- `displayContent`: the semantic text plus the hidden machine-readable
trailing comment. -/
def composeClarifyMessage (topic contentFormat audience tone : String) : List Char :=
  clarifyHeader topic contentFormat audience tone
    ++ "<!-- ".data
    ++ clarifyPayloadJson (jsStrOrEmpty topic) (jsStrOrEmpty contentFormat)
        (jsStrOrEmpty audience) (jsStrOrEmpty tone)
    ++ " -->".data

inductive ClarifyEv where
  | streamSubmit (content : List Char)
  | bridge (e : BridgeEv)
deriving DecidableEq, Repr

/-- The embedded `handleSubmit`: early-returns on the `submitting` guard,
otherwise sets the guard, composes the message, prefers
`streamCtx.submit(...)` inside a guarded attempt, and falls back to the
action bridge. -/
def handleSubmit (stream : FnBehavior) (h : Host) (s : ClarifyFormState) :
    ClarifyFormState × List ClarifyEv :=
  if s.submitting then (s, [])
  else
    let msg := composeClarifyMessage s.topic s.contentFormat s.audience s.tone
    let s' := { s with submitting := true }
    match stream with
    | .ok => (s', [.streamSubmit msg])
    | .throws =>
      (s', .streamSubmit msg :: (sendMessage h (String.mk msg)).map .bridge)
    | .absent => (s', (sendMessage h (String.mk msg)).map .bridge)

/-! ### Concrete hosts and payloads used to instantiate the theorems -/

/-- A host exposing a working `sendMessage` global and a textarea. -/
def hostOkSend : Host :=
  { global := fun s => if s = "sendMessage" then .ok else .absent
    query := fun _ => true }

/-- A host with no injected functions and a resolvable `textarea`. -/
def hostNoGlobals : Host :=
  { global := fun _ => .absent
    query := fun sel => sel == "textarea" }

/-- A host exposing only the dedicated resume function. -/
def hostResumeOk : Host :=
  { global := fun s => if s = "__LANGGRAPH_RESUME__" then .ok else .absent
    query := fun _ => false }

def propsQ1 : ClarifyProps :=
  { question := some "Q1", missing := some ["topic"]
    topic := none, content_format := none, target_audience := none, tone := none }

def propsQ2 : ClarifyProps :=
  { question := some "Q2", missing := some ["topic"]
    topic := none, content_format := none, target_audience := none, tone := none }

def formIdle : ClarifyFormState :=
  { topic := "a", contentFormat := "b", audience := "c", tone := "d", submitting := false }

def formBusy : ClarifyFormState :=
  { topic := "a", contentFormat := "b", audience := "c", tone := "d", submitting := true }

/-! ### Probe loop lemmas -/

theorem probeGlobals_all_calls (h : Host) (arg : BridgeArg) (l : List String) :
    (probeGlobals h arg l).1.all isGlobalCall = true := by
  induction l with
  | nil => rfl
  | cons fn rest ih =>
    simp only [probeGlobals]
    cases h.global fn <;> simp [isGlobalCall, ih]

theorem probeGlobals_dispatched_iff (h : Host) (arg : BridgeArg) (l : List String) :
    (probeGlobals h arg l).2 = true ↔ ∃ fn ∈ l, h.global fn = FnBehavior.ok := by
  induction l with
  | nil => simp [probeGlobals]
  | cons fn rest ih =>
    simp only [probeGlobals]
    cases hfn : h.global fn with
    | absent =>
      simp only [ih, List.mem_cons]
      constructor
      · rintro ⟨g, hg, hok⟩; exact ⟨g, Or.inr hg, hok⟩
      · rintro ⟨g, hg | hg, hok⟩
        · rw [hg] at hok; rw [hok] at hfn; cases hfn
        · exact ⟨g, hg, hok⟩
    | ok =>
      simp only [List.mem_cons]
      constructor
      · intro _; exact ⟨fn, Or.inl rfl, hfn⟩
      · intro _; trivial
    | throws =>
      simp only [ih, List.mem_cons]
      constructor
      · rintro ⟨g, hg, hok⟩; exact ⟨g, Or.inr hg, hok⟩
      · rintro ⟨g, hg | hg, hok⟩
        · rw [hg] at hok; rw [hok] at hfn; cases hfn
        · exact ⟨g, hg, hok⟩

theorem domPhase_hit (h : Host) (text : String) (l : List String)
    (hl : ∃ sel ∈ l, h.query sel = true) :
    (domPhase h text l).any isDomAction = true := by
  induction l with
  | nil => rcases hl with ⟨sel, hsel, _⟩; cases hsel
  | cons sel rest ih =>
    simp only [domPhase]
    by_cases hq : h.query sel = true
    · simp [hq, isDomAction]
    · rcases hl with ⟨s, hs, hqs⟩
      rcases List.mem_cons.mp hs with hs | hs
      · rw [hs] at hqs; exact absurd hqs hq
      · simp only [hq, if_neg]
        simp only [Bool.not_eq_true] at hq
        simp [hq, ih ⟨s, hs, hqs⟩]


/-! ### JSON round-trip lemmas -/

theorem hexVal_hexDigit : ∀ m, m < 16 → hexVal (hexDigit m) = some m := by decide

theorem parseJStringAux_escapeChar (c : Char) (rest : List Char) :
    parseJStringAux (escapeChar c ++ rest) =
      (parseJStringAux rest).map (fun p => (c :: p.1, p.2)) := by
  by_cases h1 : c = '"'
  · subst h1
    rw [show escapeChar '"' = ['\\', '"'] from by decide, List.cons_append,
        List.cons_append, List.nil_append, parseJStringAux.eq_def]
    simp [parseEscapeCode]
  by_cases h2 : c = '\\'
  · subst h2
    rw [show escapeChar '\\' = ['\\', '\\'] from by decide, List.cons_append,
        List.cons_append, List.nil_append, parseJStringAux.eq_def]
    simp [parseEscapeCode]
  by_cases h3 : c = Char.ofNat 8
  · subst h3
    rw [show escapeChar (Char.ofNat 8) = ['\\', 'b'] from by decide, List.cons_append,
        List.cons_append, List.nil_append, parseJStringAux.eq_def]
    simp [parseEscapeCode]
  by_cases h4 : c = Char.ofNat 12
  · subst h4
    rw [show escapeChar (Char.ofNat 12) = ['\\', 'f'] from by decide, List.cons_append,
        List.cons_append, List.nil_append, parseJStringAux.eq_def]
    simp [parseEscapeCode]
  by_cases h5 : c = Char.ofNat 10
  · subst h5
    rw [show escapeChar (Char.ofNat 10) = ['\\', 'n'] from by decide, List.cons_append,
        List.cons_append, List.nil_append, parseJStringAux.eq_def]
    simp [parseEscapeCode]
  by_cases h6 : c = Char.ofNat 13
  · subst h6
    rw [show escapeChar (Char.ofNat 13) = ['\\', 'r'] from by decide, List.cons_append,
        List.cons_append, List.nil_append, parseJStringAux.eq_def]
    simp [parseEscapeCode]
  by_cases h7 : c = Char.ofNat 9
  · subst h7
    rw [show escapeChar (Char.ofNat 9) = ['\\', 't'] from by decide, List.cons_append,
        List.cons_append, List.nil_append, parseJStringAux.eq_def]
    simp [parseEscapeCode]
  by_cases h8 : c.toNat < 32
  · have he : escapeChar c =
        ['\\', 'u', '0', '0', hexDigit (c.toNat / 16), hexDigit (c.toNat % 16)] := by
      unfold escapeChar
      rw [if_neg h1, if_neg h2, if_neg h3, if_neg h4, if_neg h5, if_neg h6, if_neg h7,
          if_pos h8]
    have hd1 : hexVal (hexDigit (c.toNat / 16)) = some (c.toNat / 16) :=
      hexVal_hexDigit _ (by omega)
    have hd2 : hexVal (hexDigit (c.toNat % 16)) = some (c.toNat % 16) :=
      hexVal_hexDigit _ (by omega)
    have hz : hexVal '0' = some 0 := by decide
    have hc : Char.ofNat (c.toNat / 16 * 16 + c.toNat % 16) = c := by
      rw [show c.toNat / 16 * 16 + c.toNat % 16 = c.toNat from by omega]
      exact Char.ofNat_toNat c
    rw [he]
    simp only [List.cons_append, List.nil_append]
    rw [parseJStringAux.eq_def]
    simp only [hz, hd1, hd2]
    simp [hc]
  · have he : escapeChar c = [c] := by
      unfold escapeChar
      rw [if_neg h1, if_neg h2, if_neg h3, if_neg h4, if_neg h5, if_neg h6, if_neg h7,
          if_neg h8]
    rw [he, List.cons_append, List.nil_append, parseJStringAux.eq_def]
    simp [h1, h2, h8]

theorem parseJStringAux_escape (s rest : List Char) :
    parseJStringAux (escapeList s ++ '"' :: rest) = some (s, rest) := by
  induction s with
  | nil =>
    rw [escapeList, List.nil_append, parseJStringAux.eq_def]
    simp
  | cons c cs ih =>
    rw [escapeList, List.append_assoc, parseJStringAux_escapeChar, ih]
    rfl

theorem parseJString_quote (s rest : List Char) :
    parseJString (jsonQuote s ++ rest) = some (s, rest) := by
  simp only [jsonQuote, List.cons_append, List.append_assoc, List.singleton_append]
  simp [parseJString, parseJStringAux_escape]

theorem dropLit_append (p r : List Char) : dropLit p (p ++ r) = some r := by
  induction p with
  | nil => rfl
  | cons c cs ih => simp [dropLit, ih]

theorem parseClarifyJson_roundtrip (t cf aud tn : String) :
    parseClarifyJson (clarifyPayloadJson t cf aud tn) = some (t, cf, aud, tn) := by
  have hbr : dropLit "\x7d".data "\x7d".data = some ([] : List Char) := by decide
  simp only [clarifyPayloadJson, parseClarifyJson, List.append_assoc,
             dropLit_append, parseJString_quote, hbr]

/-! ### Single-line property of the embedded JSON -/

theorem newline_not_in_escapeChar (c : Char) : Char.ofNat 10 ∉ escapeChar c := by
  unfold escapeChar
  split_ifs with h1 h2 h3 h4 h5 h6 h7 h8
  · decide
  · decide
  · decide
  · decide
  · decide
  · decide
  · decide
  · intro hmem
    have hda : ∀ m, m < 16 → ¬ (Char.ofNat 10 = hexDigit m) := by decide
    simp only [List.mem_cons, List.not_mem_nil, or_false] at hmem
    rcases hmem with h | h | h | h | h | h
    · exact absurd h (by decide)
    · exact absurd h (by decide)
    · exact absurd h (by decide)
    · exact absurd h (by decide)
    · exact hda _ (by omega) h
    · exact hda _ (by omega) h
  · intro hmem
    simp only [List.mem_cons, List.not_mem_nil, or_false] at hmem
    exact h5 hmem.symm

theorem newline_not_in_escapeList (s : List Char) : Char.ofNat 10 ∉ escapeList s := by
  induction s with
  | nil => simp [escapeList]
  | cons c cs ih =>
    simp only [escapeList, List.mem_append]
    rintro (h | h)
    · exact newline_not_in_escapeChar c h
    · exact ih h

theorem newline_not_in_jsonQuote (s : List Char) : Char.ofNat 10 ∉ jsonQuote s := by
  intro hmem
  simp only [jsonQuote, List.mem_cons, List.mem_append, List.mem_singleton] at hmem
  rcases hmem with h | h | h
  · exact absurd h (by decide)
  · exact newline_not_in_escapeList s h
  · exact absurd h (by decide)

theorem newline_not_in_clarifyPayloadJson (t cf aud tn : String) :
    Char.ofNat 10 ∉ clarifyPayloadJson t cf aud tn := by
  unfold clarifyPayloadJson
  exact List.not_mem_append
    (List.not_mem_append
      (List.not_mem_append
        (List.not_mem_append
          (List.not_mem_append
            (List.not_mem_append
              (List.not_mem_append
                (List.not_mem_append (by decide) (newline_not_in_jsonQuote _))
                (by decide))
              (newline_not_in_jsonQuote _))
            (by decide))
          (newline_not_in_jsonQuote _))
        (by decide))
      (newline_not_in_jsonQuote _))
    (by decide)

theorem jsStrOrEmpty_eq (s : String) : jsStrOrEmpty s = s := by
  unfold jsStrOrEmpty
  split_ifs with h
  · exact h.symm
  · rfl

/-- Every element of a trace made of global calls only is neither a broadcast
nor a DOM action. -/
theorem all_calls_no_broadcast_dom (tr : List BridgeEv)
    (h : tr.all isGlobalCall = true) :
    tr.any isBroadcast = false ∧ tr.any isDomAction = false := by
  constructor <;>
  · rw [List.any_eq_false]
    intro e he
    have hc := List.all_eq_true.mp h e he
    cases e <;> simp_all [isGlobalCall, isBroadcast, isDomAction]

/-! ## Claim theorems -/

/-- C1, counterexample: the claim states that `active_step = 0` yields all
steps pending, but the JS coercion `props.active_step || 1` turns `0` into
`1`, so with one step `["fetch"]` and `active_step = 0` the first step
renders `active`, not `pending`. -/
theorem progress_zero_not_all_pending :
    renderSteps ["fetch"] (some 0) = [StepState.active]
    ∧ StepState.active ≠ StepState.pending := by
  constructor
  · rfl
  · decide

/-- C1 (amended): with the effective cursor `a = jsOrOne active_step`
(`active_step` when present and nonzero, `1` when absent or `0`), the step at
0-based index `idx` renders `done` iff `idx + 1 < a`, `active` iff
`idx + 1 = a`, `pending` iff `a < idx + 1`; so `active_step = 0` behaves like
`active_step = 1` (step 1 active, not all pending), absence defaults to `1`,
and a cursor above the step count yields all `done`.  The list rendering just
applies `stepState` at each index. -/
theorem stepState_spec (a : Option Int) (idx : Nat) :
    (stepState a idx = StepState.done ↔ ((idx : Int) + 1) < jsOrOne a)
    ∧ (stepState a idx = StepState.active ↔ ((idx : Int) + 1) = jsOrOne a)
    ∧ (stepState a idx = StepState.pending ↔ jsOrOne a < ((idx : Int) + 1))
    ∧ stepState (some 0) idx = stepState (some 1) idx
    ∧ stepState none idx = stepState (some 1) idx
    ∧ ∀ (steps : List String) (i : Fin steps.length),
        (renderSteps steps a).get
          ⟨i.1, by rw [renderSteps, List.length_mapIdx]; exact i.2⟩ = stepState a i.1 := by
  refine ⟨?_, ?_, ?_, ?_, ?_, ?_⟩
  · simp only [stepState]
    split_ifs with h1 h2 <;> simp_all
  · simp only [stepState]
    split_ifs with h1 h2 <;> simp_all
    all_goals omega
  · simp only [stepState]
    split_ifs with h1 h2 <;> simp_all <;> omega
  · rfl
  · rfl
  · intro steps i
    exact List.get_mapIdx steps (fun idx _ => stepState a idx) i.1 i.2

/-- C3, counterexample: the claim states that `impact = 7` renders as 5
filled and 0 empty glyphs without faulting; in fact
`"☆".repeat(5 - 7)` throws a RangeError, so the render faults (`none`)
instead of producing the clamped 5-glyph scale. -/
theorem impactGlyphs_overflow_faults :
    impactGlyphs (some 7) = none
    ∧ impactGlyphs (some 7) ≠ some (List.replicate 5 '★') := by
  constructor
  · rfl
  · decide

/-- C3 (amended): the glyph scale is NOT clamped.  For `impact` within the
declared range `0..5` it renders `impact` filled plus `5 - impact` empty
glyphs (5 in total); for `impact > 5` the empty-glyph repeat count is
negative and the render faults; for `impact < 0` the filled-glyph repeat
count is negative and the render faults; an absent impact renders 0 filled
and 5 empty.  The fix-action click forwards a nonempty `fix_prompt`
literally, unmodified. -/
theorem impactGlyphs_spec (v : Int) (t : String) :
    (0 ≤ v → v ≤ 5 →
      impactGlyphs (some v)
        = some (List.replicate v.toNat '★' ++ List.replicate (5 - v.toNat) '☆'))
    ∧ (5 < v → impactGlyphs (some v) = none)
    ∧ (v < 0 → impactGlyphs (some v) = none)
    ∧ (∀ p : String, ¬ p = "" → fixChatMessage (some p) t = p)
    ∧ impactGlyphs none = some (List.replicate 5 '☆') := by
  refine ⟨?_, ?_, ?_, ?_, ?_⟩
  · intro h0 h5
    simp only [impactGlyphs, jsOrZero, strRepeat,
               if_neg (show ¬ v < 0 by omega), if_neg (show ¬ (5 - v < 0) by omega)]
    rw [show ((5 : Int) - v).toNat = 5 - v.toNat from by omega]
  · intro h
    simp only [impactGlyphs, jsOrZero, strRepeat,
               if_neg (show ¬ v < 0 by omega), if_pos (show (5 - v < 0) by omega)]
  · intro h
    simp only [impactGlyphs, jsOrZero, strRepeat, if_pos (show v < 0 by omega)]
  · intro p hp
    simp [fixChatMessage, hp]
  · rfl

/-- C3 witness: concrete instances of the amended statement. -/
theorem impactGlyphs_spec_witness :
    impactGlyphs (some 3)
      = some (List.replicate (3 : Int).toNat '★' ++ List.replicate (5 - (3 : Int).toNat) '☆')
    ∧ impactGlyphs (some 7) = none
    ∧ impactGlyphs (some (-1)) = none
    ∧ fixChatMessage (some "Fix title tags") "t" = "Fix title tags" :=
  ⟨(impactGlyphs_spec 3 "t").1 (by decide) (by decide),
   (impactGlyphs_spec 7 "t").2.1 (by decide),
   (impactGlyphs_spec (-1) "t").2.2.1 (by decide),
   (impactGlyphs_spec 3 "t").2.2.2.1 "Fix title tags" (by decide)⟩

/-- C8: a key not present in the registry looks up to absence; the lookup is
a total function, so no exception is possible. -/
theorem componentLookup_unknown (k : String)
    (h : ¬ k ∈ ComponentMap.map Prod.fst) :
    componentLookup k = none := by
  have hf : ComponentMap.find? (fun p => p.1 == k) = none := by
    rw [List.find?_eq_none]
    intro p hp
    simp only [beq_iff_eq]
    intro he
    exact h (he ▸ List.mem_map_of_mem Prod.fst hp)
  simp [componentLookup, hf]

/-- C8 witness: the spec's concrete unknown key `"nonexistent"`. -/
theorem componentLookup_unknown_witness : componentLookup "nonexistent" = none :=
  componentLookup_unknown "nonexistent" (by decide)

/-- C9: the legacy key `"card"` and `"intent_router"` resolve to the same
renderer identity (`IntentRouterCard`), and `"card"` is the only aliasing
key: any two distinct registry keys mapping to the same renderer are the
`"card"`/`"intent_router"` pair. -/
theorem card_alias_spec :
    componentLookup "card" = componentLookup "intent_router"
    ∧ componentLookup "card" = some Renderer.IntentRouterCard
    ∧ (ComponentMap.all fun p => ComponentMap.all fun q =>
        p.1 == q.1 || !(p.2 == q.2) || p.1 == "card" || q.1 == "card") = true := by
  refine ⟨?_, ?_, ?_⟩ <;> decide

/-- C5: if one of the probed well-known global send functions exists and its
call does not throw, `sendMessage` performs only global calls: no event
broadcast and no DOM manipulation. -/
theorem sendMessage_global_short_circuit (h : Host) (text : String)
    (hok : ∃ fn ∈ sendGlobalFns, h.global fn = FnBehavior.ok) :
    (sendMessage h text).all isGlobalCall = true
    ∧ (sendMessage h text).any isBroadcast = false
    ∧ (sendMessage h text).any isDomAction = false := by
  rcases hp : probeGlobals h (BridgeArg.text text) sendGlobalFns with ⟨evs, d⟩
  have hd := (probeGlobals_dispatched_iff h (BridgeArg.text text) sendGlobalFns).mpr hok
  rw [hp] at hd
  simp only at hd
  subst hd
  have hall := probeGlobals_all_calls h (BridgeArg.text text) sendGlobalFns
  rw [hp] at hall
  simp only at hall
  have htr : sendMessage h text = evs := by
    simp [sendMessage, hp]
  rw [htr]
  exact ⟨hall, all_calls_no_broadcast_dom evs hall⟩

/-- C5 witness: a host exposing a working `sendMessage` global. -/
theorem sendMessage_global_short_circuit_witness :
    (sendMessage hostOkSend "hi").all isGlobalCall = true
    ∧ (sendMessage hostOkSend "hi").any isBroadcast = false
    ∧ (sendMessage hostOkSend "hi").any isDomAction = false :=
  sendMessage_global_short_circuit hostOkSend "hi" ⟨"sendMessage", by decide, by decide⟩

/-- C2, counterexample: on a host with no injected globals and a resolvable
textarea, the trace of `sendMessage` contains both the `langgraph:send`
broadcast (strategy 2, dispatched without throwing) and the DOM manipulation
(strategy 3), refuting "no strategy after a dispatching one runs". -/
theorem sendMessage_broadcast_falls_through :
    (sendMessage hostNoGlobals "hi").any isBroadcast = true
    ∧ (sendMessage hostNoGlobals "hi").any isDomAction = true := by
  constructor
  · rfl
  · rfl

/-- C2 (amended): only strategy 1 stops the chain.  A successful probed
global call means the trace is global calls only (no broadcast, no DOM
work); but when no probed global call succeeds, the event broadcast always
runs and — regardless of the broadcast having dispatched without throwing —
strategy 3 also runs whenever some selector resolves to an input. -/
theorem sendMessage_chain_spec (h : Host) (text : String) :
    ((∃ fn ∈ sendGlobalFns, h.global fn = FnBehavior.ok) →
       (sendMessage h text).all isGlobalCall = true)
    ∧ ((∀ fn ∈ sendGlobalFns, ¬ h.global fn = FnBehavior.ok) →
       (sendMessage h text).any isBroadcast = true
       ∧ ((∃ sel ∈ sendSelectors, h.query sel = true) →
           (sendMessage h text).any isDomAction = true)) := by
  constructor
  · intro hok
    rcases hp : probeGlobals h (BridgeArg.text text) sendGlobalFns with ⟨evs, d⟩
    have hd := (probeGlobals_dispatched_iff h (BridgeArg.text text) sendGlobalFns).mpr hok
    rw [hp] at hd
    simp only at hd
    subst hd
    have hall := probeGlobals_all_calls h (BridgeArg.text text) sendGlobalFns
    rw [hp] at hall
    simpa [sendMessage, hp] using hall
  · intro hnone
    rcases hp : probeGlobals h (BridgeArg.text text) sendGlobalFns with ⟨evs, d⟩
    have hd : ¬ d = true := by
      intro hdt
      have := (probeGlobals_dispatched_iff h (BridgeArg.text text) sendGlobalFns).mp
        (by rw [hp]; exact hdt)
      rcases this with ⟨fn, hfn, hok⟩
      exact hnone fn hfn hok
    have hdf : d = false := by
      cases d
      · rfl
      · exact absurd rfl hd
    subst hdf
    have htr : sendMessage h text
        = evs ++ BridgeEv.broadcast "langgraph:send" (BridgeArg.text text)
            :: domPhase h text sendSelectors := by
      simp [sendMessage, hp]
    constructor
    · rw [htr]
      simp [List.any_append, isBroadcast]
    · intro hsel
      rw [htr]
      simp [List.any_append, List.any_cons, domPhase_hit h text sendSelectors hsel]

/-- C2 witness: both sides of the amended statement at concrete hosts. -/
theorem sendMessage_chain_spec_witness :
    (sendMessage hostOkSend "hi").all isGlobalCall = true
    ∧ (sendMessage hostNoGlobals "hi").any isBroadcast = true
    ∧ (sendMessage hostNoGlobals "hi").any isDomAction = true :=
  ⟨(sendMessage_chain_spec hostOkSend "hi").1 ⟨"sendMessage", by decide, by decide⟩,
   ((sendMessage_chain_spec hostNoGlobals "hi").2 (by decide)).1,
   ((sendMessage_chain_spec hostNoGlobals "hi").2 (by decide)).2
     ⟨"textarea", by decide, by decide⟩⟩

/-- C7, counterexample: on a host with no injected functions, the resume
trace contains the `langgraph:resume` broadcast (a structured channel that
dispatched without throwing) and still contains the action-bridge fallback
(the `langgraph:send` broadcast and the DOM manipulation), refuting both "no
strategy after a successfully dispatching one runs" and "fallback only when
no structured channel exists". -/
theorem resumeInterrupt_falls_through :
    (resumeInterrupt hostNoGlobals true).any isResumeBroadcast = true
    ∧ (resumeInterrupt hostNoGlobals true).any isSendBroadcast = true
    ∧ (resumeInterrupt hostNoGlobals true).any isDomAction = true := by
  refine ⟨rfl, rfl, rfl⟩

/-- C7 (amended): the resume chain is ordered as claimed and carries exactly
the decision value (`confirmed` flag): a working dedicated resume function
yields exactly one call with the decision payload and stops the chain; any
working resume function (dedicated or alternative) keeps the trace to global
calls only; but when none works, the `langgraph:resume` broadcast runs and
the action-bridge fallback with the fixed localized confirm/cancel text
always runs after it (it is not reserved for "no structured channel"). -/
theorem resumeInterrupt_chain_spec (h : Host) (c : Bool) :
    (h.global "__LANGGRAPH_RESUME__" = FnBehavior.ok →
       resumeInterrupt h c
         = [BridgeEv.callGlobal "__LANGGRAPH_RESUME__" (BridgeArg.resumeVal c)])
    ∧ ((∃ fn ∈ "__LANGGRAPH_RESUME__" :: resumeAltFns, h.global fn = FnBehavior.ok) →
       (resumeInterrupt h c).all isGlobalCall = true)
    ∧ ((∀ fn ∈ "__LANGGRAPH_RESUME__" :: resumeAltFns, ¬ h.global fn = FnBehavior.ok) →
       (resumeInterrupt h c).any isResumeBroadcast = true
       ∧ List.IsSuffix (sendMessage h (if c then "确认" else "取消"))
           (resumeInterrupt h c)) := by
  refine ⟨?_, ?_, ?_⟩
  · intro hok
    simp [resumeInterrupt, probeGlobals, hok]
  · rintro ⟨fn, hfn, hok⟩
    rcases hp1 : probeGlobals h (BridgeArg.resumeVal c) ["__LANGGRAPH_RESUME__"] with ⟨e1, d1⟩
    have hall1 := probeGlobals_all_calls h (BridgeArg.resumeVal c) ["__LANGGRAPH_RESUME__"]
    rw [hp1] at hall1
    simp only at hall1
    by_cases hd1 : d1 = true
    · subst hd1
      simpa [resumeInterrupt, hp1] using hall1
    · have hd1f : d1 = false := by
        cases d1
        · rfl
        · exact absurd rfl hd1
      subst hd1f
      rcases hp2 : probeGlobals h (BridgeArg.resumeVal c) resumeAltFns with ⟨e2, d2⟩
      have hall2 := probeGlobals_all_calls h (BridgeArg.resumeVal c) resumeAltFns
      rw [hp2] at hall2
      simp only at hall2
      have hfn2 : fn ∈ resumeAltFns := by
        rcases List.mem_cons.mp hfn with rfl | hfn2
        · have := (probeGlobals_dispatched_iff h (BridgeArg.resumeVal c)
            ["__LANGGRAPH_RESUME__"]).mpr ⟨"__LANGGRAPH_RESUME__", by simp, hok⟩
          rw [hp1] at this
          exact absurd this hd1
        · exact hfn2
      have hd2 : d2 = true := by
        have := (probeGlobals_dispatched_iff h (BridgeArg.resumeVal c) resumeAltFns).mpr
          ⟨fn, hfn2, hok⟩
        rw [hp2] at this
        exact this
      subst hd2
      simp [resumeInterrupt, hp1, hp2, List.all_append, hall1, hall2]
  · intro hnone
    rcases hp1 : probeGlobals h (BridgeArg.resumeVal c) ["__LANGGRAPH_RESUME__"] with ⟨e1, d1⟩
    have hd1 : d1 = false := by
      cases hdd : d1
      · rfl
      · have := (probeGlobals_dispatched_iff h (BridgeArg.resumeVal c)
          ["__LANGGRAPH_RESUME__"]).mp (by rw [hp1]; exact hdd)
        rcases this with ⟨fn, hfn, hok⟩
        exact absurd hok (hnone fn (by simpa using Or.inl (List.mem_singleton.mp hfn)))
    subst hd1
    rcases hp2 : probeGlobals h (BridgeArg.resumeVal c) resumeAltFns with ⟨e2, d2⟩
    have hd2 : d2 = false := by
      cases hdd : d2
      · rfl
      · have := (probeGlobals_dispatched_iff h (BridgeArg.resumeVal c) resumeAltFns).mp
          (by rw [hp2]; exact hdd)
        rcases this with ⟨fn, hfn, hok⟩
        exact absurd hok (hnone fn (List.mem_cons_of_mem _ hfn))
    subst hd2
    have htr : resumeInterrupt h c
        = e1 ++ e2 ++ BridgeEv.broadcast "langgraph:resume" (BridgeArg.resumeVal c)
            :: sendMessage h (if c then "确认" else "取消") := by
      simp [resumeInterrupt, hp1, hp2]
    constructor
    · rw [htr]
      simp [List.any_append, List.any_cons, isResumeBroadcast]
    · rw [htr]
      exact ⟨e1 ++ e2 ++ [BridgeEv.broadcast "langgraph:resume" (BridgeArg.resumeVal c)],
        by simp⟩

/-- C7 witness: the dedicated-resume host and the bare host. -/
theorem resumeInterrupt_chain_spec_witness :
    resumeInterrupt hostResumeOk true
      = [BridgeEv.callGlobal "__LANGGRAPH_RESUME__" (BridgeArg.resumeVal true)]
    ∧ (resumeInterrupt hostResumeOk true).all isGlobalCall = true
    ∧ (resumeInterrupt hostNoGlobals false).any isResumeBroadcast = true
    ∧ List.IsSuffix (sendMessage hostNoGlobals (if false then "确认" else "取消"))
        (resumeInterrupt hostNoGlobals false) :=
  ⟨(resumeInterrupt_chain_spec hostResumeOk true).1 (by decide),
   (resumeInterrupt_chain_spec hostResumeOk true).2.1
     ⟨"__LANGGRAPH_RESUME__", by decide, by decide⟩,
   ((resumeInterrupt_chain_spec hostNoGlobals false).2.2 (by decide)).1,
   ((resumeInterrupt_chain_spec hostNoGlobals false).2.2 (by decide)).2⟩

/-- C4: for all four form field values, the composed Clarify message carries
a trailing HTML-style comment wrapping the single-line JSON serialization of
the four-field object, and parsing that JSON recovers exactly the four
values (round-trip).  The JSON is newline-free, hence single-line. -/
theorem clarify_submit_roundtrip (topic contentFormat audience tone : String) :
    composeClarifyMessage topic contentFormat audience tone
      = clarifyHeader topic contentFormat audience tone
        ++ ("<!-- ".data ++ (clarifyPayloadJson topic contentFormat audience tone
            ++ " -->".data))
    ∧ parseClarifyJson (clarifyPayloadJson topic contentFormat audience tone)
      = some (topic, contentFormat, audience, tone)
    ∧ Char.ofNat 10 ∉ clarifyPayloadJson topic contentFormat audience tone := by
  refine ⟨?_, parseClarifyJson_roundtrip topic contentFormat audience tone,
    newline_not_in_clarifyPayloadJson topic contentFormat audience tone⟩
  simp [composeClarifyMessage, jsStrOrEmpty_eq, List.append_assoc]

/-- C6: the `submitting` guard is set by a submit from an idle state; a
payload update that changes the question resets it to `false`; an update
that changes the serialized missing-fields list resets it to `false`; an
update that changes neither leaves it unchanged (in particular `true` stays
`true`). -/
theorem submitting_guard_spec (stream : FnBehavior) (hb : Host)
    (s : ClarifyFormState) (prev next : ClarifyProps) :
    (s.submitting = false → ((handleSubmit stream hb s).1).submitting = true)
    ∧ (¬ next.question = prev.question →
        (applyClarifyUpdate prev next s).submitting = false)
    ∧ (¬ missingKey next = missingKey prev →
        (applyClarifyUpdate prev next s).submitting = false)
    ∧ (next.question = prev.question → missingKey next = missingKey prev →
        (applyClarifyUpdate prev next s).submitting = s.submitting) := by
  refine ⟨?_, ?_, ?_, ?_⟩
  · intro hs
    cases stream <;> simp [handleSubmit, hs]
  · intro hq
    simp [applyClarifyUpdate, hq]
  · intro hm
    simp [applyClarifyUpdate, hm]
  · intro hq hm
    simp [applyClarifyUpdate, hq, hm]

/-- C6 witness: submit from idle sets the guard; a question change
`"Q1" → "Q2"` resets it; an identical payload re-push leaves it `true`. -/
theorem submitting_guard_spec_witness :
    ((handleSubmit FnBehavior.ok hostNoGlobals formIdle).1).submitting = true
    ∧ (applyClarifyUpdate propsQ1 propsQ2 formBusy).submitting = false
    ∧ (applyClarifyUpdate propsQ1 propsQ1 formBusy).submitting = true :=
  ⟨(submitting_guard_spec FnBehavior.ok hostNoGlobals formIdle propsQ1 propsQ1).1 rfl,
   (submitting_guard_spec FnBehavior.ok hostNoGlobals formBusy propsQ1 propsQ2).2.1
     (by decide),
   ((submitting_guard_spec FnBehavior.ok hostNoGlobals formBusy propsQ1 propsQ1).2.2.2
     rfl rfl).trans rfl⟩

/-- C10: when the `submitting` guard is already set, `handleSubmit` is a
no-op: the form state is returned unchanged and no delivery channel (stream
submit, global call, event, DOM) is invoked. -/
theorem handleSubmit_guard_noop (stream : FnBehavior) (hb : Host)
    (s : ClarifyFormState) (hs : s.submitting = true) :
    handleSubmit stream hb s = (s, []) := by
  simp [handleSubmit, hs]

/-- C10 witness: a busy form on any channel configuration. -/
theorem handleSubmit_guard_noop_witness :
    handleSubmit FnBehavior.ok hostNoGlobals formBusy = (formBusy, []) :=
  handleSubmit_guard_noop FnBehavior.ok hostNoGlobals formBusy rfl

end CmsCopilot
